import Mathlib

/-!
Verification development for the downloader notifier: the job lifecycle
state machine and the notification/retry/recovery engine.

The Go source (package `notifier`) is embedded shallowly: pure helpers
become Lean functions; the effectful delivery routine `Notify` is modelled
as a function from an environment (the outcomes of the fallible store and
HTTP operations of one delivery attempt) to the mutated job record, the
ordered list of store/HTTP actions it performed, and its returned error.
Go `net/url` and `path` stdlib calls are modelled from their documented
behaviour on the inputs the notifier feeds them.
-/

namespace Downloader

/-- Job states, mirroring the `job.State` string constants
(`Pending`, `InProgress`, `Success`, `Failed`). -/
inductive State where
  | pending
  | inProgress
  | success
  | failed
  deriving DecidableEq, Repr

/-- Raw string value of a state, as stored in the record. -/
def State.toRaw : State → String
  | State.pending => "Pending"
  | State.inProgress => "InProgress"
  | State.success => "Success"
  | State.failed => "Failed"

/-- The job record (`job.Job`): one download plus one callback
sub-state-machine.  `callbackCount` is the number of delivery attempts. -/
structure Job where
  id : String
  aggrID : String
  url : String
  callbackURL : String
  extra : String
  downloadState : State
  downloadMeta : String
  callbackState : State
  callbackMeta : String
  callbackCount : Nat
  deriving DecidableEq, Repr

/-- `const maxCallbackRetries = 2` from the notifier package. -/
def maxCallbackRetries : Nat := 2

/-- Model of Go `net/url.URL` restricted to the components the notifier
touches: scheme, opaque part, host and path. -/
structure URL where
  scheme : String
  opaquePart : String
  host : String
  path : String
  deriving DecidableEq, Repr

/-! String primitives reimplemented over the character list so that they
evaluate inside the kernel; each models the Go / Lean stdlib function it
is named after. -/

/-- `strings.HasPrefix`. -/
def strStartsWith (s pre : String) : Bool := pre.data.isPrefixOf s.data

/-- `strings.HasSuffix`. -/
def strEndsWith (s suf : String) : Bool := suf.data.isSuffixOf s.data

/-- The first `n` characters. -/
def strTake (s : String) (n : Nat) : String := String.mk (s.data.take n)

/-- All but the first `n` characters. -/
def strDrop (s : String) (n : Nat) : String := String.mk (s.data.drop n)

/-- Longest prefix of characters satisfying `p`. -/
def strTakeWhile (p : Char → Bool) (s : String) : String := String.mk (s.data.takeWhile p)

/-- Remainder after `strTakeWhile`. -/
def strDropWhile (p : Char → Bool) (s : String) : String := String.mk (s.data.dropWhile p)

/-- ASCII lower-casing of one character. -/
def lowerChar (c : Char) : Char :=
  if 65 ≤ c.toNat ∧ c.toNat ≤ 90 then Char.ofNat (c.toNat + 32) else c

/-- ASCII `strings.ToLower`. -/
def strToLower (s : String) : String := String.mk (s.data.map lowerChar)

/-- Model of `net/url`'s `getScheme`: splits a raw URL into scheme and
remainder.  Scans characters: letters continue; digits and `+ - .`
continue unless first; `:` at position 0 is an error, later it ends the
scheme; any other character means there is no scheme. -/
def getSchemeAux (orig : String) : Nat → List Char → Except String (String × String)
  | _, [] => Except.ok ("", orig)
  | i, c :: cs =>
    if c.isAlpha then getSchemeAux orig (i + 1) cs
    else if c.isDigit || c = '+' || c = '-' || c = '.' then
      if i = 0 then Except.ok ("", orig) else getSchemeAux orig (i + 1) cs
    else if c = ':' then
      if i = 0 then Except.error "missing protocol scheme"
      else Except.ok (strToLower (strTake orig i), strDrop orig (i + 1))
    else Except.ok ("", orig)

/-- See `getSchemeAux`. -/
def getScheme (s : String) : Except String (String × String) :=
  getSchemeAux s 0 s.data

/-- Model of Go `net/url.ParseRequestURI` (i.e. `parse(rawURL, true)`) on
the shapes relevant here: the empty string is rejected; after scheme
splitting, `//authority/path` yields host and path, a leading `/` yields a
rootless-host path, a non-empty scheme with a rootless remainder yields an
opaque URL, and anything else (no scheme, no leading slash) is rejected
with `invalid URI for request`. -/
def parseRequestURI (s : String) : Option URL :=
  if s = "" then none
  else
    match getScheme s with
    | Except.error _ => none
    | Except.ok (scheme, rest) =>
      if strStartsWith rest "//" then
        let afterSlashes := strDrop rest 2
        let host := strTakeWhile (fun c => decide (c ≠ '/')) afterSlashes
        let path := strDropWhile (fun c => decide (c ≠ '/')) afterSlashes
        some { scheme := scheme, opaquePart := "", host := host, path := path }
      else if strStartsWith rest "/" then
        some { scheme := scheme, opaquePart := "", host := "", path := rest }
      else if scheme ≠ "" then
        some { scheme := scheme, opaquePart := rest, host := "", path := "" }
      else none

/-- Model of Go `url.URL.String()` on the component combinations produced
by `parseRequestURI` and the notifier's path update. -/
def URL.toString (u : URL) : String :=
  (if u.scheme = "" then "" else u.scheme ++ ":") ++
    (if u.opaquePart ≠ "" then u.opaquePart
     else (if u.host = "" then "" else "//" ++ u.host) ++ u.path)

/-- Model of Go `path.Join(a, b)` for already-clean arguments: empty
elements are dropped, the rest are joined with a single `/`. -/
def pathJoin (a b : String) : String :=
  if a = "" then b
  else if b = "" then a
  else if strEndsWith a "/" then a ++ b
  else a ++ "/" ++ b

/-- `CallbackInfo`: the payload posted back to the job's callback URL. -/
structure CallbackInfo where
  success : Bool
  error : String
  extra : String
  downloadURL : String
  deriving DecidableEq, Repr

/-- The notifier, keeping the fields the embedded operations read (the
storage handle, logger and HTTP client live in the environment instead). -/
structure Notifier where
  downloadURL : URL
  concurrency : Int
  deriving DecidableEq, Repr

/-- `New`: parses the download URL with `ParseRequestURI` (error if that
fails), then rejects a non-positive concurrency, else returns the
notifier. -/
def New (concurrency : Int) (dwnlURL : String) : Except String Notifier :=
  match parseRequestURI dwnlURL with
  | none => Except.error "Could not parse Download URL"
  | some u =>
    if concurrency ≤ 0 then Except.error "Notifier Concurrency must be a positive number"
    else Except.ok { downloadURL := u, concurrency := concurrency }

/-- Whether `New` fails with a configuration error. -/
def newFails (concurrency : Int) (dwnlURL : String) : Bool :=
  match New concurrency dwnlURL with
  | Except.error _ => true
  | Except.ok _ => false

/-- Spec-side notion for comparison: the template parses as an absolute
URL, i.e. it parses and the resulting URL has a non-empty scheme
(`url.IsAbs`). -/
def specAbsURL (s : String) : Bool :=
  match parseRequestURI s with
  | some u => u.scheme ≠ ""
  | none => false

/-- One store/HTTP action performed by a delivery attempt, in order. -/
inductive StoreAction where
  | saveJob (j : Job)
  | queuePendingCallback (j : Job)
  | removeJob (id : String)
  | httpPost (url : String) (body : CallbackInfo)
  deriving DecidableEq, Repr

/-- Environment of one delivery attempt: outcomes of the fallible store
operations and of the HTTP POST.  `postStatus = none` is a transport
error with text `transportErrText`; `some code` is an HTTP response with
status line `postStatusText`. -/
structure NotifyEnv where
  inProgressSaveErr : Option String
  postStatus : Option Nat
  postStatusText : String
  transportErrText : String
  failedSaveErr : Option String
  queueErr : Option String
  removeErr : Option String

/-- Result of one step or of a whole delivery attempt: the job record as
mutated in memory, the actions attempted against the store / network, and
the error value returned. -/
structure StepResult where
  job : Job
  actions : List StoreAction
  ret : Option String
  deriving Repr

/-- `markCbInProgress`: set `CallbackState = InProgress`, clear
`CallbackMeta`, persist via `SaveJob`. -/
def markCbInProgress (env : NotifyEnv) (j : Job) : StepResult :=
  let j' := { j with callbackState := State.inProgress, callbackMeta := "" }
  { job := j', actions := [StoreAction.saveJob j'], ret := env.inProgressSaveErr }

/-- `markCbFailed`: set `CallbackState = Failed`, record the reason in
`CallbackMeta`, persist via `SaveJob` (the permanent-failure log line is
not modelled). -/
def markCbFailed (env : NotifyEnv) (j : Job) (meta : String) : StepResult :=
  let j' := { j with callbackState := State.failed, callbackMeta := meta }
  { job := j', actions := [StoreAction.saveJob j'], ret := env.failedSaveErr }

/-- `retryOrFail`: if the callback count has reached `maxCallbackRetries`,
mark the callback failed; otherwise re-enqueue the job to the
pending-callback queue. -/
def retryOrFail (env : NotifyEnv) (j : Job) (err : String) : StepResult :=
  if maxCallbackRetries ≤ j.callbackCount then markCbFailed env j err
  else { job := j, actions := [StoreAction.queuePendingCallback j], ret := env.queueErr }

/-- `getCallbackInfo`: requires a terminal download state, then builds the
callback payload.  The download URL is built by `jobDownloadURL`. -/
def jobDownloadURL (j : Job) (downloadURL : URL) : String :=
  if j.downloadState ≠ State.success then ""
  else URL.toString { downloadURL with path := pathJoin downloadURL.path j.id }

/-- See `jobDownloadURL`; mirrors the Go `getCallbackInfo`. -/
def getCallbackInfo (n : Notifier) (j : Job) : Except String CallbackInfo :=
  if j.downloadState ≠ State.success ∧ j.downloadState ≠ State.failed then
    Except.error ("Invalid job download state: " ++ j.downloadState.toRaw)
  else
    Except.ok
      { success := j.downloadState == State.success
        error := j.downloadMeta
        extra := j.extra
        downloadURL := jobDownloadURL j n.downloadURL }

/-- `Notify`: one delivery attempt.  Increments `CallbackCount`, claims
the job (`markCbInProgress`; a persistence error aborts the attempt),
validates eligibility (an ineligible job goes straight to
`markCbFailed`), POSTs the payload, and on a transport error or non-2xx
status runs `retryOrFail`; on a 2xx response it removes the job record.
(`json.Marshal` of `CallbackInfo` cannot fail and is omitted.) -/
def Notify (n : Notifier) (env : NotifyEnv) (j0 : Job) : StepResult :=
  let j1 := { j0 with callbackCount := j0.callbackCount + 1 }
  let s1 := markCbInProgress env j1
  match s1.ret with
  | some e => { job := s1.job, actions := s1.actions, ret := some e }
  | none =>
    match getCallbackInfo n s1.job with
    | Except.error e =>
      let s2 := markCbFailed env s1.job e
      { job := s2.job, actions := s1.actions ++ s2.actions, ret := s2.ret }
    | Except.ok cbInfo =>
      let postAct := StoreAction.httpPost s1.job.callbackURL cbInfo
      match env.postStatus with
      | none =>
        let s2 := retryOrFail env s1.job env.transportErrText
        { job := s2.job, actions := s1.actions ++ postAct :: s2.actions, ret := s2.ret }
      | some code =>
        if code < 200 ∨ 300 ≤ code then
          let s2 := retryOrFail env s1.job ("Received Status: " ++ env.postStatusText)
          { job := s2.job, actions := s1.actions ++ postAct :: s2.actions, ret := s2.ret }
        else
          { job := s1.job
            actions := s1.actions ++ [postAct, StoreAction.removeJob s1.job.id]
            ret := env.removeErr }

/-- A job is eligible for callback delivery when its download state is
terminal. -/
def eligible (j : Job) : Prop :=
  j.downloadState = State.success ∨ j.downloadState = State.failed

/-- The delivery attempt's POST failed: transport error or non-2xx. -/
def deliveryFailed (env : NotifyEnv) : Prop :=
  env.postStatus = none ∨ ∃ c, env.postStatus = some c ∧ (c < 200 ∨ 300 ≤ c)

/-- The error text `Notify` attaches to a failed delivery. -/
def deliveryErrText (env : NotifyEnv) : String :=
  match env.postStatus with
  | none => env.transportErrText
  | some _ => "Received Status: " ++ env.postStatusText

/-- The store as seen by the notifier: the job-record table keyed by job
ID, and the pending-callback queue. -/
structure Store where
  table : String → Option Job
  queue : List Job

/-- Effect of one successful store action on the store (HTTP actions do
not touch it). -/
def applyAction (s : Store) : StoreAction → Store
  | StoreAction.saveJob j =>
    { s with table := fun k => if k = j.id then some j else s.table k }
  | StoreAction.queuePendingCallback j => { s with queue := s.queue ++ [j] }
  | StoreAction.removeJob i =>
    { s with table := fun k => if k = i then none else s.table k }
  | StoreAction.httpPost _ _ => s

/-- Effect of a sequence of successful store actions. -/
def applyActions (s : Store) (acts : List StoreAction) : Store :=
  acts.foldl applyAction s

/-! ## Startup recovery scan (`collectRogueCallbacks`)

The Redis cursor scan is modelled as a list of pages: each `Scan` round
trip either returns a page of job-record keys or a store error.  Reaching
the end of the list is the cursor returning to 0.  Keys are job IDs (the
`JobKeyPrefix` added by the store and trimmed before `GetJob` is a
bijection and is elided). -/

/-- One `Scan` round trip of the recovery scan. -/
inductive ScanPage where
  | ok (keys : List String)
  | err (msg : String)
  deriving DecidableEq, Repr

/-- A page that returned keys rather than an error. -/
def pageOk : ScanPage → Bool
  | ScanPage.ok _ => true
  | ScanPage.err _ => false

/-- Keys listed by a sequence of pages (ignoring errors). -/
def keysOf : List ScanPage → List String
  | [] => []
  | ScanPage.ok ks :: rest => ks ++ keysOf rest
  | ScanPage.err _ :: rest => keysOf rest

/-- Outcomes of the fallible per-key operations of the recovery scan:
whether `HGet`, `GetJob`, or `QueuePendingCallback` fails for a key. -/
structure ScanEnv where
  hgetErr : String → Bool
  getJobErr : String → Bool
  queuePendingErr : String → Bool

/-- Body of the recovery scan's per-key loop: `HGet` the `CallbackState`
(a missing record or an `HGet` error skips the key), and for an
`InProgress` record, `GetJob` and `QueuePendingCallback` it (an error in
either skips the key).  Returns the job enqueued for this key, if any. -/
def processKey (env : ScanEnv) (table : String → Option Job) (k : String) : Option Job :=
  match table k with
  | none => none
  | some jb =>
    if env.hgetErr k then none
    else if jb.callbackState = State.inProgress then
      if env.getJobErr k then none
      else if env.queuePendingErr k then none
      else some jb
    else none

/-- The scan loop over pages: process each page's keys in order; a page
error logs and breaks out of the loop, abandoning the rest of the scan.
Returns the jobs enqueued, in order. -/
def scanPages (env : ScanEnv) (table : String → Option Job) : List ScanPage → List Job
  | [] => []
  | ScanPage.ok ks :: rest =>
    ks.filterMap (processKey env table) ++ scanPages env table rest
  | ScanPage.err _ :: _ => []

/-- `collectRogueCallbacks`: the startup recovery scan.  It only reads
the job-record table and appends the re-enqueued jobs to the
pending-callback queue. -/
def collectRogueCallbacks (env : ScanEnv) (pages : List ScanPage) (s : Store) : Store :=
  { s with queue := s.queue ++ scanPages env s.table pages }

/-! ## Job decoding (spec-modelled)

The `job` package's `UnmarshalJSON` is not part of the source slice (only
its test file is), so decoding is modelled from the spec's validation
contract (§4.1) and checked against the truth table of
`job/job_test.go`. -/

/-- A decoded JSON value as relevant to job fields. -/
inductive JVal where
  | str (s : String)
  | int (n : Int)
  | boolean (b : Bool)
  | null
  deriving DecidableEq, Repr

/-- A wire payload: either not well-formed structured data, or an object
of named fields. -/
inductive Wire where
  | malformed
  | obj (fields : List (String × JVal))
  deriving DecidableEq, Repr

/-- The result of a successful decode. -/
structure JobInput where
  aggrID : String
  url : String
  callbackURL : String
  extra : String
  downloadTimeout : Option Int
  deriving DecidableEq, Repr

/-- A string that parses as a valid absolute URI (non-empty scheme). -/
def validAbsURI (s : String) : Bool :=
  match parseRequestURI s with
  | some u => u.scheme ≠ ""
  | none => false

/-- The optional `extra` field, defaulting to the empty string. -/
def extraOf (fields : List (String × JVal)) : String :=
  match List.lookup "extra" fields with
  | some (JVal.str e) => e
  | _ => ""

/-- Modelled from the spec: `job.Job`'s `UnmarshalJSON` validation
contract (§4.1), whose Go source is missing from the slice.  Fails if the
payload is malformed; if `aggr_id` is missing, not a string, or empty; if
`url` or `callback_url` is missing, not a string, or not a valid absolute
URI; or if `download_timeout` is present but not a positive integer.
`extra` is optional and passed through. -/
def unmarshalJob : Wire → Except String JobInput
  | Wire.malformed => Except.error "invalid JSON"
  | Wire.obj fields =>
    match List.lookup "aggr_id" fields with
    | some (JVal.str a) =>
      if a = "" then Except.error "AggrID must be a non-empty string"
      else
        match List.lookup "url" fields with
        | some (JVal.str u) =>
          if validAbsURI u = false then Except.error "URL must be a valid absolute URI"
          else
            match List.lookup "callback_url" fields with
            | some (JVal.str cb) =>
              if validAbsURI cb = false then
                Except.error "CallbackURL must be a valid absolute URI"
              else
                match List.lookup "download_timeout" fields with
                | none =>
                  Except.ok
                    { aggrID := a, url := u, callbackURL := cb
                      extra := extraOf fields, downloadTimeout := none }
                | some (JVal.int t) =>
                  if t ≤ 0 then Except.error "DownloadTimeout must be a positive integer"
                  else
                    Except.ok
                      { aggrID := a, url := u, callbackURL := cb
                        extra := extraOf fields, downloadTimeout := some t }
                | some _ => Except.error "DownloadTimeout must be a positive integer"
            | some _ => Except.error "CallbackURL must be a valid absolute URI"
            | none => Except.error "CallbackURL must be a valid absolute URI"
        | some _ => Except.error "URL must be a valid absolute URI"
        | none => Except.error "URL must be a valid absolute URI"
    | some _ => Except.error "AggrID must be a non-empty string"
    | none => Except.error "AggrID must be a non-empty string"

/-- Whether decoding a wire payload fails. -/
def unmarshalFails (w : Wire) : Bool :=
  match unmarshalJob w with
  | Except.error _ => true
  | Except.ok _ => false

/-- The spec's failure conditions for decoding, spelled out over a wire
payload. -/
def wireBad : Wire → Prop
  | Wire.malformed => True
  | Wire.obj fields =>
    (match List.lookup "aggr_id" fields with
     | some (JVal.str a) => a = ""
     | some _ => True
     | none => True) ∨
    (match List.lookup "url" fields with
     | some (JVal.str u) => validAbsURI u = false
     | some _ => True
     | none => True) ∨
    (match List.lookup "callback_url" fields with
     | some (JVal.str cb) => validAbsURI cb = false
     | some _ => True
     | none => True) ∨
    (match List.lookup "download_timeout" fields with
     | some (JVal.int t) => t ≤ 0
     | some _ => True
     | none => False)

/-! ## Shape lemmas for the four outcomes of a delivery attempt -/

/-- The claimed record a delivery attempt persists first: callback count
incremented, state `InProgress`, meta cleared. -/
def jobClaimed (j0 : Job) : Job :=
  { j0 with callbackCount := j0.callbackCount + 1
            callbackState := State.inProgress
            callbackMeta := "" }

/-- The record persisted on a permanent failure with reason `m`. -/
def jobFailedWith (j0 : Job) (m : String) : Job :=
  { jobClaimed j0 with callbackState := State.failed, callbackMeta := m }

theorem notify_shape_retry (n : Notifier) (env : NotifyEnv) (j0 : Job)
    (helig : eligible j0) (hsave : env.inProgressSaveErr = none)
    (hfail : deliveryFailed env) (hlt : j0.callbackCount + 1 < maxCallbackRetries) :
    ∃ cb, Notify n env j0 =
      { job := jobClaimed j0
        actions := [StoreAction.saveJob (jobClaimed j0),
                    StoreAction.httpPost j0.callbackURL cb,
                    StoreAction.queuePendingCallback (jobClaimed j0)]
        ret := env.queueErr } := by
  have hnot : ¬ maxCallbackRetries ≤ j0.callbackCount + 1 := not_le.mpr hlt
  rcases hfail with hpost | ⟨c, hpost, hc⟩
  · rcases helig with h | h <;>
      simp [Notify, markCbInProgress, getCallbackInfo, retryOrFail, markCbFailed,
        jobClaimed, hsave, hpost, h, hnot]
  · rcases helig with h | h <;>
      simp [Notify, markCbInProgress, getCallbackInfo, retryOrFail, markCbFailed,
        jobClaimed, hsave, hpost, h, hnot, hc]

theorem notify_shape_exhaust (n : Notifier) (env : NotifyEnv) (j0 : Job)
    (helig : eligible j0) (hsave : env.inProgressSaveErr = none)
    (hfail : deliveryFailed env) (hge : maxCallbackRetries ≤ j0.callbackCount + 1) :
    ∃ cb, Notify n env j0 =
      { job := jobFailedWith j0 (deliveryErrText env)
        actions := [StoreAction.saveJob (jobClaimed j0),
                    StoreAction.httpPost j0.callbackURL cb,
                    StoreAction.saveJob (jobFailedWith j0 (deliveryErrText env))]
        ret := env.failedSaveErr } := by
  rcases hfail with hpost | ⟨c, hpost, hc⟩
  · rcases helig with h | h <;>
      simp [Notify, markCbInProgress, getCallbackInfo, retryOrFail, markCbFailed,
        jobClaimed, jobFailedWith, deliveryErrText, hsave, hpost, h, hge]
  · rcases helig with h | h <;>
      simp [Notify, markCbInProgress, getCallbackInfo, retryOrFail, markCbFailed,
        jobClaimed, jobFailedWith, deliveryErrText, hsave, hpost, h, hge, hc]

theorem notify_shape_success (n : Notifier) (env : NotifyEnv) (j0 : Job) (c : Nat)
    (helig : eligible j0) (hsave : env.inProgressSaveErr = none)
    (hpost : env.postStatus = some c) (hlo : 200 ≤ c) (hhi : c < 300) :
    ∃ cb, Notify n env j0 =
      { job := jobClaimed j0
        actions := [StoreAction.saveJob (jobClaimed j0),
                    StoreAction.httpPost j0.callbackURL cb,
                    StoreAction.removeJob j0.id]
        ret := env.removeErr } := by
  have h1 : ¬ c < 200 := not_lt.mpr hlo
  have h2 : ¬ 300 ≤ c := not_le.mpr hhi
  rcases helig with h | h <;>
    simp [Notify, markCbInProgress, getCallbackInfo, jobClaimed,
      hsave, hpost, h, h1, h2]

theorem notify_shape_ineligible (n : Notifier) (env : NotifyEnv) (j0 : Job)
    (h1 : j0.downloadState ≠ State.success) (h2 : j0.downloadState ≠ State.failed)
    (hsave : env.inProgressSaveErr = none) :
    Notify n env j0 =
      { job := jobFailedWith j0 ("Invalid job download state: " ++ j0.downloadState.toRaw)
        actions := [StoreAction.saveJob (jobClaimed j0),
                    StoreAction.saveJob (jobFailedWith j0
                      ("Invalid job download state: " ++ j0.downloadState.toRaw))]
        ret := env.failedSaveErr } := by
  simp [Notify, markCbInProgress, getCallbackInfo, markCbFailed,
    jobClaimed, jobFailedWith, hsave, h1, h2]

/-- The first action of every delivery attempt is persisting the claimed
record (count incremented, state `InProgress`, meta cleared). -/
theorem notify_first_action (n : Notifier) (env : NotifyEnv) (j0 : Job) :
    (Notify n env j0).actions.head? = some (StoreAction.saveJob (jobClaimed j0)) := by
  rcases h : env.inProgressSaveErr with _ | e
  · by_cases he : eligible j0
    · rcases hp : env.postStatus with _ | c
      · have hf : deliveryFailed env := Or.inl hp
        by_cases hge : maxCallbackRetries ≤ j0.callbackCount + 1
        · obtain ⟨cb, heq⟩ := notify_shape_exhaust n env j0 he h hf hge
          simp [heq]
        · obtain ⟨cb, heq⟩ := notify_shape_retry n env j0 he h hf (not_le.mp hge)
          simp [heq]
      · by_cases hbad : c < 200 ∨ 300 ≤ c
        · have hf : deliveryFailed env := Or.inr ⟨c, hp, hbad⟩
          by_cases hge : maxCallbackRetries ≤ j0.callbackCount + 1
          · obtain ⟨cb, heq⟩ := notify_shape_exhaust n env j0 he h hf hge
            simp [heq]
          · obtain ⟨cb, heq⟩ := notify_shape_retry n env j0 he h hf (not_le.mp hge)
            simp [heq]
        · push_neg at hbad
          obtain ⟨cb, heq⟩ := notify_shape_success n env j0 c he h hp hbad.1 hbad.2
          simp [heq]
    · rw [eligible] at he
      push_neg at he
      rw [notify_shape_ineligible n env j0 he.1 he.2 h]
      rfl
  · simp [Notify, markCbInProgress, jobClaimed, h]

/-! ## Witness fixtures -/

/-- A concrete notifier for witnesses. -/
def wNotifier : Notifier :=
  { downloadURL := { scheme := "http", opaquePart := "", host := "dl.example", path := "/files" }
    concurrency := 1 }

/-- An environment where every operation succeeds and the POST gets 200. -/
def okEnv : NotifyEnv :=
  { inProgressSaveErr := none, postStatus := some 200, postStatusText := "200 OK"
    transportErrText := "connection refused", failedSaveErr := none
    queueErr := none, removeErr := none }

/-- Like `okEnv` but the POST gets a 500 response. -/
def env500 : NotifyEnv :=
  { okEnv with postStatus := some 500, postStatusText := "500 Internal Server Error" }

/-- A concrete job whose download failed, on its first delivery attempt. -/
def wJobFailedDl : Job :=
  { id := "j1", aggrID := "A", url := "http://src/x", callbackURL := "http://dst/cb"
    extra := "", downloadState := State.failed, downloadMeta := "boom"
    callbackState := State.pending, callbackMeta := "", callbackCount := 0 }

/-- A concrete job still in `DownloadState = Pending` (ineligible). -/
def wJobPendingDl : Job :=
  { wJobFailedDl with downloadState := State.pending }

/-! ## Claims about the delivery algorithm -/

/-- C1: after a failed delivery attempt (transport error or non-2xx
status), the notifier marks `CallbackState = Failed` — recording the
failure reason in `CallbackMeta` and persisting the record — if and only
if the incremented `CallbackCount` has reached the retry ceiling of 2;
below the ceiling it instead re-enqueues the job to the pending-callback
queue. -/
theorem c1_failed_attempt_retry_or_fail (n : Notifier) (env : NotifyEnv) (j0 : Job)
    (helig : eligible j0) (hsave : env.inProgressSaveErr = none)
    (hfail : deliveryFailed env) :
    (Notify n env j0).job.callbackCount = j0.callbackCount + 1 ∧
    ((Notify n env j0).job.callbackState = State.failed ↔
      maxCallbackRetries ≤ j0.callbackCount + 1) ∧
    (maxCallbackRetries ≤ j0.callbackCount + 1 →
      (Notify n env j0).job.callbackMeta = deliveryErrText env ∧
      StoreAction.saveJob (Notify n env j0).job ∈ (Notify n env j0).actions) ∧
    (j0.callbackCount + 1 < maxCallbackRetries →
      StoreAction.queuePendingCallback (jobClaimed j0) ∈ (Notify n env j0).actions) := by
  by_cases hge : maxCallbackRetries ≤ j0.callbackCount + 1
  · obtain ⟨cb, heq⟩ := notify_shape_exhaust n env j0 helig hsave hfail hge
    rw [heq]
    refine ⟨rfl, ?_, fun _ => ⟨rfl, ?_⟩, fun hlt => absurd hge (not_le.mpr hlt)⟩
    · simp [jobFailedWith, jobClaimed, hge]
    · simp
  · obtain ⟨cb, heq⟩ := notify_shape_retry n env j0 helig hsave hfail (not_le.mp hge)
    rw [heq]
    refine ⟨rfl, ?_, fun h => absurd h hge, fun _ => ?_⟩
    · simp [jobClaimed, hge]
    · simp

/-- Witness for C1: a job with one prior attempt gets a 500 and is marked
`Failed` with the reason recorded; its count reaches 2. -/
theorem c1_witness :
    (Notify wNotifier env500 { wJobFailedDl with callbackCount := 1 }).job.callbackCount =
        { wJobFailedDl with callbackCount := 1 }.callbackCount + 1 ∧
    ((Notify wNotifier env500 { wJobFailedDl with callbackCount := 1 }).job.callbackState =
        State.failed ↔
      maxCallbackRetries ≤ { wJobFailedDl with callbackCount := 1 }.callbackCount + 1) ∧
    (maxCallbackRetries ≤ { wJobFailedDl with callbackCount := 1 }.callbackCount + 1 →
      (Notify wNotifier env500 { wJobFailedDl with callbackCount := 1 }).job.callbackMeta =
          deliveryErrText env500 ∧
      StoreAction.saveJob (Notify wNotifier env500 { wJobFailedDl with callbackCount := 1 }).job ∈
        (Notify wNotifier env500 { wJobFailedDl with callbackCount := 1 }).actions) ∧
    ({ wJobFailedDl with callbackCount := 1 }.callbackCount + 1 < maxCallbackRetries →
      StoreAction.queuePendingCallback (jobClaimed { wJobFailedDl with callbackCount := 1 }) ∈
        (Notify wNotifier env500 { wJobFailedDl with callbackCount := 1 }).actions) :=
  c1_failed_attempt_retry_or_fail wNotifier env500 { wJobFailedDl with callbackCount := 1 }
    (Or.inr rfl) rfl (Or.inr ⟨500, rfl, Or.inr (by decide)⟩)

/-- C2 fails on the code: an ineligible job (DownloadState = Pending) on
its first attempt (incremented count 1, below the ceiling 2) is marked
`CallbackState = Failed` immediately and is never re-enqueued to the
pending-callback queue. -/
theorem c2_counterexample :
    wJobPendingDl.callbackCount + 1 < maxCallbackRetries ∧
    (Notify wNotifier okEnv wJobPendingDl).job.callbackState = State.failed ∧
    (Notify wNotifier okEnv wJobPendingDl).actions =
      [StoreAction.saveJob (jobClaimed wJobPendingDl),
       StoreAction.saveJob
         (jobFailedWith wJobPendingDl "Invalid job download state: Pending")] := by
  refine ⟨by decide, rfl, by decide⟩

/-- C2 amended: a job handed to a worker whose `DownloadState` is neither
`Success` nor `Failed` is not routed through the retry/fail transition:
it is marked `CallbackState = Failed` immediately (with the reason
persisted), regardless of its `CallbackCount`, and is never re-enqueued
to the pending-callback queue. -/
theorem c2_ineligible_fails_immediately (n : Notifier) (env : NotifyEnv) (j0 : Job)
    (h1 : j0.downloadState ≠ State.success) (h2 : j0.downloadState ≠ State.failed)
    (hsave : env.inProgressSaveErr = none) :
    (Notify n env j0).job.callbackState = State.failed ∧
    (Notify n env j0).job.callbackMeta =
      "Invalid job download state: " ++ j0.downloadState.toRaw ∧
    (Notify n env j0).actions =
      [StoreAction.saveJob (jobClaimed j0),
       StoreAction.saveJob
         (jobFailedWith j0 ("Invalid job download state: " ++ j0.downloadState.toRaw))] ∧
    (∀ j', StoreAction.queuePendingCallback j' ∉ (Notify n env j0).actions) := by
  rw [notify_shape_ineligible n env j0 h1 h2 hsave]
  refine ⟨rfl, rfl, rfl, ?_⟩
  intro j' hj'
  simp at hj'

/-- Witness for the amended C2 at the concrete ineligible job. -/
theorem c2_witness :
    (Notify wNotifier okEnv wJobPendingDl).job.callbackState = State.failed ∧
    (Notify wNotifier okEnv wJobPendingDl).job.callbackMeta =
      "Invalid job download state: " ++ wJobPendingDl.downloadState.toRaw ∧
    (Notify wNotifier okEnv wJobPendingDl).actions =
      [StoreAction.saveJob (jobClaimed wJobPendingDl),
       StoreAction.saveJob
         (jobFailedWith wJobPendingDl
           ("Invalid job download state: " ++ wJobPendingDl.downloadState.toRaw))] ∧
    (∀ j', StoreAction.queuePendingCallback j' ∉ (Notify wNotifier okEnv wJobPendingDl).actions) :=
  c2_ineligible_fails_immediately wNotifier okEnv wJobPendingDl
    (by decide) (by decide) rfl

/-- C5: a delivery attempt whose POST gets a 2xx status ends by removing
the job record (`RemoveJob`); applying the attempt's store actions leaves
the record absent from the store. -/
theorem c5_success_removes_record (n : Notifier) (env : NotifyEnv) (j0 : Job)
    (c : Nat) (s : Store)
    (helig : eligible j0) (hsave : env.inProgressSaveErr = none)
    (hpost : env.postStatus = some c) (hlo : 200 ≤ c) (hhi : c < 300)
    (hrem : env.removeErr = none) :
    (∃ cb, (Notify n env j0).actions =
      [StoreAction.saveJob (jobClaimed j0),
       StoreAction.httpPost j0.callbackURL cb,
       StoreAction.removeJob j0.id]) ∧
    (applyActions s (Notify n env j0).actions).table j0.id = none ∧
    (Notify n env j0).ret = none := by
  obtain ⟨cb, heq⟩ := notify_shape_success n env j0 c helig hsave hpost hlo hhi
  rw [heq]
  exact ⟨⟨cb, rfl⟩, by simp [applyActions, applyAction], hrem⟩

/-- Witness for C5: the concrete failed-download job is delivered with a
200 and its record is gone from a store that previously held it. -/
theorem c5_witness :
    (∃ cb, (Notify wNotifier okEnv wJobFailedDl).actions =
      [StoreAction.saveJob (jobClaimed wJobFailedDl),
       StoreAction.httpPost wJobFailedDl.callbackURL cb,
       StoreAction.removeJob wJobFailedDl.id]) ∧
    (applyActions
        { table := fun k => if k = "j1" then some wJobFailedDl else none, queue := [] }
        (Notify wNotifier okEnv wJobFailedDl).actions).table wJobFailedDl.id = none ∧
    (Notify wNotifier okEnv wJobFailedDl).ret = none :=
  c5_success_removes_record wNotifier okEnv wJobFailedDl 200
    { table := fun k => if k = "j1" then some wJobFailedDl else none, queue := [] }
    (Or.inr rfl) rfl rfl (by decide) (by decide) rfl

/-- C6: every delivery attempt begins by incrementing `CallbackCount` by
one, setting `CallbackState = InProgress`, clearing `CallbackMeta` and
persisting that record; if that persist fails, `Notify` returns the
persistence error having performed no HTTP POST and no further store
action. -/
theorem c6_claim_then_persist_gate (n : Notifier) (env : NotifyEnv) (j0 : Job) :
    (Notify n env j0).actions.head? = some (StoreAction.saveJob (jobClaimed j0)) ∧
    (∀ e, env.inProgressSaveErr = some e →
      Notify n env j0 =
        { job := jobClaimed j0
          actions := [StoreAction.saveJob (jobClaimed j0)]
          ret := some e }) := by
  refine ⟨notify_first_action n env j0, fun e he => ?_⟩
  simp [Notify, markCbInProgress, jobClaimed, he]

/-- Witness for C6: with a failing initial persist the attempt stops
after the single `SaveJob`. -/
theorem c6_witness :
    (Notify wNotifier { okEnv with inProgressSaveErr := some "redis down" }
        wJobFailedDl).actions.head? =
      some (StoreAction.saveJob (jobClaimed wJobFailedDl)) ∧
    (∀ e, ({ okEnv with inProgressSaveErr := some "redis down" } : NotifyEnv).inProgressSaveErr =
        some e →
      Notify wNotifier { okEnv with inProgressSaveErr := some "redis down" } wJobFailedDl =
        { job := jobClaimed wJobFailedDl
          actions := [StoreAction.saveJob (jobClaimed wJobFailedDl)]
          ret := some e }) :=
  c6_claim_then_persist_gate wNotifier { okEnv with inProgressSaveErr := some "redis down" }
    wJobFailedDl

/-- C9: when a failed attempt is re-enqueued (count below the ceiling),
the notifier only pushes the job onto the pending-callback queue; the
only `SaveJob` of the attempt is the initial one, so the persisted record
keeps `CallbackState = InProgress` with the incremented count, and a
`Pending` state is never written back. -/
theorem c9_retry_requeues_without_save (n : Notifier) (env : NotifyEnv) (j0 : Job)
    (helig : eligible j0) (hsave : env.inProgressSaveErr = none)
    (hfail : deliveryFailed env) (hlt : j0.callbackCount + 1 < maxCallbackRetries) :
    (∃ cb, (Notify n env j0).actions =
      [StoreAction.saveJob (jobClaimed j0),
       StoreAction.httpPost j0.callbackURL cb,
       StoreAction.queuePendingCallback (jobClaimed j0)]) ∧
    (∀ j', StoreAction.saveJob j' ∈ (Notify n env j0).actions → j' = jobClaimed j0) ∧
    (jobClaimed j0).callbackState = State.inProgress ∧
    (jobClaimed j0).callbackCount = j0.callbackCount + 1 := by
  obtain ⟨cb, heq⟩ := notify_shape_retry n env j0 helig hsave hfail hlt
  rw [heq]
  refine ⟨⟨cb, rfl⟩, ?_, rfl, rfl⟩
  intro j' hj'
  simp at hj'
  exact hj'

/-- Witness for C9 at the concrete failed-download job and a 500
response. -/
theorem c9_witness :
    (∃ cb, (Notify wNotifier env500 wJobFailedDl).actions =
      [StoreAction.saveJob (jobClaimed wJobFailedDl),
       StoreAction.httpPost wJobFailedDl.callbackURL cb,
       StoreAction.queuePendingCallback (jobClaimed wJobFailedDl)]) ∧
    (∀ j', StoreAction.saveJob j' ∈ (Notify wNotifier env500 wJobFailedDl).actions →
      j' = jobClaimed wJobFailedDl) ∧
    (jobClaimed wJobFailedDl).callbackState = State.inProgress ∧
    (jobClaimed wJobFailedDl).callbackCount = wJobFailedDl.callbackCount + 1 :=
  c9_retry_requeues_without_save wNotifier env500 wJobFailedDl
    (Or.inr rfl) rfl (Or.inr ⟨500, rfl, Or.inr (by decide)⟩) (by decide)

/-! ## Claims about the startup recovery scan -/

theorem count_filterMap_eq_count {α β : Type} [DecidableEq α] [DecidableEq β]
    (f : α → Option β) (b : β) (a : α) (h : ∀ x, f x = some b ↔ x = a) :
    ∀ l : List α, (l.filterMap f).count b = l.count a := by
  intro l
  induction l with
  | nil => simp
  | cons x xs ih =>
    rcases hfx : f x with _ | b'
    · have hxa : x ≠ a := fun hx => by
        rw [hx, (h a).mpr rfl] at hfx
        cases hfx
      simp [List.filterMap_cons, hfx, List.count_cons, hxa, Ne.symm hxa, ih]
    · by_cases hb : b' = b
      · subst hb
        have hxa : x = a := (h x).mp hfx
        subst hxa
        simp [List.filterMap_cons, hfx, List.count_cons, ih]
      · have hxa : x ≠ a := fun hx => by
          rw [hx, (h a).mpr rfl] at hfx
          exact hb (Option.some.inj hfx).symm
        simp [List.filterMap_cons, hfx, List.count_cons, hxa, Ne.symm hxa, hb,
          fun hc : b = b' => hb hc.symm, ih]

theorem scanPages_eq_filterMap (env : ScanEnv) (table : String → Option Job) :
    ∀ pages : List ScanPage, (∀ p ∈ pages, pageOk p = true) →
      scanPages env table pages = (keysOf pages).filterMap (processKey env table)
  | [], _ => rfl
  | ScanPage.ok ks :: rest, hok => by
    simp only [scanPages, keysOf, List.filterMap_append]
    rw [scanPages_eq_filterMap env table rest
      (fun q hq => hok q (List.mem_cons_of_mem _ hq))]
  | ScanPage.err m :: rest, hok => by
    have := hok _ (List.mem_cons_self _ _)
    simp [pageOk] at this

theorem scanPages_append_err (env : ScanEnv) (table : String → Option Job)
    (m : String) (post : List ScanPage) :
    ∀ pre : List ScanPage, (∀ p ∈ pre, pageOk p = true) →
      scanPages env table (pre ++ ScanPage.err m :: post) = scanPages env table pre
  | [], _ => rfl
  | ScanPage.ok ks :: rest, hok => by
    simp only [List.cons_append, scanPages, List.append_eq]
    rw [scanPages_append_err env table m post rest
      (fun q hq => hok q (List.mem_cons_of_mem _ hq))]
  | ScanPage.err m' :: rest, hok => by
    have := hok _ (List.mem_cons_self _ _)
    simp [pageOk] at this

/-- Inversion: the scan enqueues a job for key `x` only if the table maps
`x` to it, its callback state is `InProgress`, and none of the per-key
operations failed. -/
theorem processKey_eq_some (env : ScanEnv) (table : String → Option Job)
    (x : String) (j : Job) (hx : processKey env table x = some j) :
    table x = some j ∧ j.callbackState = State.inProgress := by
  unfold processKey at hx
  rcases ht : table x with _ | jb <;> rw [ht] at hx
  · cases hx
  · by_cases h1 : env.hgetErr x
    · simp [h1] at hx
    · by_cases h2 : jb.callbackState = State.inProgress
      · by_cases h3 : env.getJobErr x
        · simp [h1, h2, h3] at hx
        · by_cases h4 : env.queuePendingErr x
          · simp [h1, h2, h3, h4] at hx
          · simp [h1, h2, h3, h4] at hx
            subst hx
            exact ⟨rfl, h2⟩
      · simp [h1, h2] at hx

/-- C3: a record in `CallbackState = InProgress` present at the recovery
scan is afterwards in the pending-callback queue exactly once, the scan
leaves the job-record table untouched, and records in any other state are
not enqueued. -/
theorem c3_recovery_scan_exactly_once (env : ScanEnv) (pages : List ScanPage)
    (s : Store) (k : String) (j : Job)
    (hok : ∀ p ∈ pages, pageOk p = true)
    (hkey : ∀ k' j', s.table k' = some j' → j'.id = k')
    (hj : s.table k = some j)
    (hq0 : s.queue.count j = 0)
    (hcnt : (keysOf pages).count k = 1)
    (hhg : env.hgetErr k = false) (hgj : env.getJobErr k = false)
    (hqe : env.queuePendingErr k = false) :
    (collectRogueCallbacks env pages s).table = s.table ∧
    (j.callbackState = State.inProgress →
      (collectRogueCallbacks env pages s).queue.count j = 1) ∧
    (j.callbackState ≠ State.inProgress →
      (collectRogueCallbacks env pages s).queue.count j = 0) := by
  have hid : j.id = k := hkey k j hj
  refine ⟨rfl, ?_, ?_⟩
  · intro hip
    have hiff : ∀ x, processKey env s.table x = some j ↔ x = k := by
      intro x
      constructor
      · intro hx
        obtain ⟨ht, _⟩ := processKey_eq_some env s.table x j hx
        rw [← hid]
        exact (hkey x j ht).symm ▸ rfl
      · intro hx
        subst hx
        simp [processKey, hj, hhg, hip, hgj, hqe]
    show (s.queue ++ scanPages env s.table pages).count j = 1
    rw [List.count_append, hq0,
      scanPages_eq_filterMap env s.table pages hok,
      count_filterMap_eq_count (processKey env s.table) j k hiff, hcnt]
  · intro hip
    show (s.queue ++ scanPages env s.table pages).count j = 0
    rw [List.count_append, hq0,
      scanPages_eq_filterMap env s.table pages hok]
    refine Nat.add_eq_zero.mpr ⟨rfl, List.count_eq_zero.mpr ?_⟩
    intro hmem
    obtain ⟨x, _, hx⟩ := List.mem_filterMap.mp hmem
    exact hip (processKey_eq_some env s.table x j hx).2

/-- Per-key environment for the scan witness: nothing fails. -/
def wScanEnv : ScanEnv :=
  { hgetErr := fun _ => false, getJobErr := fun _ => false
    queuePendingErr := fun _ => false }

/-- A rogue job left `InProgress` by a crashed run. -/
def wRogueJob : Job :=
  { wJobFailedDl with id := "r1", callbackState := State.inProgress }

/-- A store holding only the rogue job, with an empty queue. -/
def wScanStore : Store :=
  { table := fun k => if k = "r1" then some wRogueJob else none, queue := [] }

/-- Witness for C3: after scanning the single page listing the rogue
job's key, the job is queued exactly once and the table is unchanged. -/
theorem c3_witness :
    (collectRogueCallbacks wScanEnv [ScanPage.ok ["r1"]] wScanStore).table =
      wScanStore.table ∧
    (wRogueJob.callbackState = State.inProgress →
      (collectRogueCallbacks wScanEnv [ScanPage.ok ["r1"]] wScanStore).queue.count
        wRogueJob = 1) ∧
    (wRogueJob.callbackState ≠ State.inProgress →
      (collectRogueCallbacks wScanEnv [ScanPage.ok ["r1"]] wScanStore).queue.count
        wRogueJob = 0) :=
  c3_recovery_scan_exactly_once wScanEnv [ScanPage.ok ["r1"]] wScanStore "r1" wRogueJob
    (by intro p hp; simp at hp; rw [hp]; rfl)
    (by
      intro k' j' h
      by_cases hk : k' = "r1"
      · subst hk
        simp [wScanStore] at h
        rw [← h]
        rfl
      · simp [wScanStore, hk] at h)
    (by simp [wScanStore]) rfl (by decide) rfl rfl rfl

/-- C10: a store error on any page of the recovery scan abandons the rest
of the scan — the resulting store is the same as if the scan had stopped
at the error, so keys in later pages are never re-enqueued. -/
theorem c10_scan_error_abandons (env : ScanEnv) (pre post : List ScanPage)
    (m : String) (s : Store)
    (hok : ∀ p ∈ pre, pageOk p = true) :
    collectRogueCallbacks env (pre ++ ScanPage.err m :: post) s =
      collectRogueCallbacks env pre s := by
  unfold collectRogueCallbacks
  rw [scanPages_append_err env s.table m post pre hok]

/-- Witness for C10: an error page after one good page makes the scan
ignore a later page that lists another key. -/
theorem c10_witness :
    collectRogueCallbacks wScanEnv
        ([ScanPage.ok ["r1"]] ++ ScanPage.err "connection reset" :: [ScanPage.ok ["r2"]])
        wScanStore =
      collectRogueCallbacks wScanEnv [ScanPage.ok ["r1"]] wScanStore :=
  c10_scan_error_abandons wScanEnv [ScanPage.ok ["r1"]] [ScanPage.ok ["r2"]]
    "connection reset" wScanStore
    (by intro p hp; simp at hp; rw [hp]; rfl)

/-! ## Claims about the callback payload and the constructor -/

theorem length_pos_of_ne_empty (b : String) (hb : b ≠ "") : 0 < b.length := by
  cases b with
  | mk data =>
    cases data with
    | nil => exact absurd rfl hb
    | cons c cs => simp [String.length]

theorem append_ne_empty_right (a b : String) (hb : b ≠ "") : a ++ b ≠ "" := by
  intro h
  have hl := congrArg String.length h
  rw [String.length_append] at hl
  have h0 : ("" : String).length = 0 := rfl
  rw [h0] at hl
  have hpos := length_pos_of_ne_empty b hb
  omega

theorem append_ne_empty_left (a b : String) (ha : a ≠ "") : a ++ b ≠ "" := by
  intro h
  have hl := congrArg String.length h
  rw [String.length_append] at hl
  have h0 : ("" : String).length = 0 := rfl
  rw [h0] at hl
  have hpos := length_pos_of_ne_empty a ha
  omega

theorem pathJoin_ne_empty (a b : String) (hb : b ≠ "") : pathJoin a b ≠ "" := by
  unfold pathJoin
  split_ifs with h1 h2 <;>
    first
      | exact hb
      | exact absurd h2 hb
      | exact append_ne_empty_right a b hb
      | exact append_ne_empty_right (a ++ "/") b hb

/-- A parsed request URI with an empty scheme has an empty opaque part. -/
theorem parseRequestURI_opaquePart (s : String) (u : URL)
    (h : parseRequestURI s = some u) (hs : u.scheme = "") : u.opaquePart = "" := by
  unfold parseRequestURI at h
  split at h
  · cases h
  · split at h
    · cases h
    · split_ifs at h with h1 h2 h3
      · rw [← Option.some_inj.mp h]
      · rw [← Option.some_inj.mp h]
      · rw [← Option.some_inj.mp h] at hs
        exact absurd hs h3

/-- Rendering a URL whose path is non-empty (and whose opaque part is
empty whenever the scheme is) never yields the empty string. -/
theorem toString_ne_empty (u : URL) (hop : u.scheme = "" → u.opaquePart = "")
    (hpath : u.path ≠ "") : URL.toString u ≠ "" := by
  unfold URL.toString
  by_cases hs : u.scheme = ""
  · rw [if_pos hs, if_neg (by simp [hop hs])]
    exact append_ne_empty_right _ _ (append_ne_empty_right _ _ hpath)
  · rw [if_neg hs]
    exact append_ne_empty_left _ _ (append_ne_empty_right _ ":" (by decide))

/-- `New` returns a notifier carrying exactly the parsed download URL. -/
theorem New_ok_downloadURL (cc : Int) (str : String) (n : Notifier)
    (hn : New cc str = Except.ok n) : parseRequestURI str = some n.downloadURL := by
  unfold New at hn
  rcases hp : parseRequestURI str with _ | u <;> rw [hp] at hn
  · cases hn
  · split_ifs at hn with hc
    cases hn
    rfl

/-- C4: for an eligible job the callback payload is
`{success, error := DownloadMeta, extra := Extra, download_url}`, where
`download_url` is the base download URL with the job ID joined onto its
path when the download succeeded, and is non-empty iff
`DownloadState = Success`. -/
theorem c4_payload_contents (cc : Int) (str : String) (n : Notifier) (j : Job)
    (hn : New cc str = Except.ok n) (hid : j.id ≠ "")
    (helig : eligible j) :
    getCallbackInfo n j = Except.ok
      { success := j.downloadState == State.success
        error := j.downloadMeta
        extra := j.extra
        downloadURL := jobDownloadURL j n.downloadURL } ∧
    (j.downloadState = State.success →
      jobDownloadURL j n.downloadURL =
        URL.toString { n.downloadURL with path := pathJoin n.downloadURL.path j.id }) ∧
    (jobDownloadURL j n.downloadURL ≠ "" ↔ j.downloadState = State.success) := by
  refine ⟨?_, ?_, ?_, ?_⟩
  · rcases helig with h | h <;> simp [getCallbackInfo, h]
  · intro h
    simp [jobDownloadURL, h]
  · intro hne
    by_contra h
    simp [jobDownloadURL, h] at hne
  · intro h
    rw [jobDownloadURL, if_neg (by simp [h])]
    have hu := New_ok_downloadURL cc str n hn
    refine toString_ne_empty _ ?_ (pathJoin_ne_empty _ _ hid)
    intro hsch
    exact parseRequestURI_opaquePart str n.downloadURL hu hsch


/-- A concrete successfully-downloaded job. -/
def wJobSuccessDl : Job :=
  { wJobFailedDl with downloadState := State.success, downloadMeta := "" }

/-- Witness for C4: the concrete successful job against the notifier
built from base URL `http://dl.example/files`. -/
theorem c4_witness :
    getCallbackInfo wNotifier wJobSuccessDl = Except.ok
      { success := wJobSuccessDl.downloadState == State.success
        error := wJobSuccessDl.downloadMeta
        extra := wJobSuccessDl.extra
        downloadURL := jobDownloadURL wJobSuccessDl wNotifier.downloadURL } ∧
    (wJobSuccessDl.downloadState = State.success →
      jobDownloadURL wJobSuccessDl wNotifier.downloadURL =
        URL.toString { wNotifier.downloadURL with
          path := pathJoin wNotifier.downloadURL.path wJobSuccessDl.id }) ∧
    (jobDownloadURL wJobSuccessDl wNotifier.downloadURL ≠ "" ↔
      wJobSuccessDl.downloadState = State.success) :=
  c4_payload_contents 1 "http://dl.example/files" wNotifier wJobSuccessDl
    rfl (by decide) (Or.inl rfl)

/-- C7 fails on the code: with concurrency 1 and template `/files` —
which `ParseRequestURI` accepts as an absolute path although it is not an
absolute URL — `New` succeeds, refuting the claimed equivalence. -/
theorem c7_counterexample :
    ¬ (newFails 1 "/files" = true ↔ ((1 : Int) ≤ 0 ∨ specAbsURL "/files" = false)) := by
  decide

/-- C7 amended: `New` fails with a configuration error iff the
concurrency is ≤ 0 or the template is not accepted by `ParseRequestURI`
(which admits absolute URIs and also absolute paths); on success the
notifier carries the given concurrency and the parsed download URL. -/
theorem c7_new_validation (cc : Int) (s : String) :
    (newFails cc s = true ↔ (cc ≤ 0 ∨ parseRequestURI s = none)) ∧
    (∀ u, parseRequestURI s = some u → 0 < cc →
      New cc s = Except.ok { downloadURL := u, concurrency := cc }) := by
  constructor
  · unfold newFails New
    rcases hp : parseRequestURI s with _ | u
    · simp
    · split_ifs with hc <;> simp [hc]
  · intro u hu hpos
    unfold New
    rw [hu]
    simp [not_le.mpr hpos]

/-- Witness for the amended C7: a valid template and concurrency 2 give a
notifier carrying both. -/
theorem c7_witness :
    New 2 "http://a/b" =
      Except.ok
        { downloadURL := { scheme := "http", opaquePart := "", host := "a", path := "/b" }
          concurrency := 2 } :=
  (c7_new_validation 2 "http://a/b").2
    { scheme := "http", opaquePart := "", host := "a", path := "/b" } rfl (by decide)

/-- C8 (spec-modelled): decoding a wire payload fails exactly when the
payload is malformed, `aggr_id` is missing/not a string/empty, `url` or
`callback_url` is missing/not a string/not a valid absolute URI, or
`download_timeout` is present but not a positive integer. -/
theorem c8_unmarshal_validation (w : Wire) :
    unmarshalFails w = true ↔ wireBad w := by
  cases w with
  | malformed => simp [unmarshalFails, unmarshalJob, wireBad]
  | obj fields =>
    unfold unmarshalFails unmarshalJob wireBad
    rcases ha : List.lookup "aggr_id" fields with _ | va
    · simp [ha]
    · cases va with
      | str a =>
        by_cases hae : a = ""
        · simp [ha, hae]
        · rcases hu : List.lookup "url" fields with _ | vu
          · simp [ha, hu, hae]
          · cases vu with
            | str u =>
              by_cases hue : validAbsURI u = false
              · simp [ha, hu, hae, hue]
              · rcases hcb : List.lookup "callback_url" fields with _ | vcb
                · simp [ha, hu, hcb, hae, hue]
                · cases vcb with
                  | str cb =>
                    by_cases hcbe : validAbsURI cb = false
                    · simp [ha, hu, hcb, hae, hue, hcbe]
                    · rcases htm : List.lookup "download_timeout" fields with _ | vt
                      · simp [ha, hu, hcb, htm, hae, hue, hcbe]
                      · cases vt with
                        | int t =>
                          by_cases hte : t ≤ 0
                          · simp [ha, hu, hcb, htm, hae, hue, hcbe, hte]
                          · simp [ha, hu, hcb, htm, hae, hue, hcbe, hte]
                        | str st => simp [ha, hu, hcb, htm, hae, hue, hcbe]
                        | boolean bb => simp [ha, hu, hcb, htm, hae, hue, hcbe]
                        | null => simp [ha, hu, hcb, htm, hae, hue, hcbe]
                  | int i => simp [ha, hu, hcb, hae, hue]
                  | boolean bb => simp [ha, hu, hcb, hae, hue]
                  | null => simp [ha, hu, hcb, hae, hue]
            | int i => simp [ha, hu, hae]
            | boolean bb => simp [ha, hu, hae]
            | null => simp [ha, hu, hae]
      | int i => simp [ha]
      | boolean bb => simp [ha]
      | null => simp [ha]

/-- The decode model reproduces the truth table of the source's
`job/job_test.go` (`TestUnmarshalJSON`): `true` means a validation
error. -/
theorem unmarshal_matches_job_test :
    unmarshalFails Wire.malformed = true ∧
    unmarshalFails (Wire.obj [("foo", JVal.str "bar")]) = true ∧
    unmarshalFails (Wire.obj [("aggr_id", JVal.str "foo"), ("url", JVal.str "foo"),
      ("callback_url", JVal.str "http://foo.bar"), ("extra", JVal.str "whatever")]) = true ∧
    unmarshalFails (Wire.obj [("aggr_id", JVal.str "foo"), ("url", JVal.str ""),
      ("callback_url", JVal.str "http://foo.bar"), ("extra", JVal.str "whatever")]) = true ∧
    unmarshalFails (Wire.obj [("aggr_id", JVal.str "foo"), ("url", JVal.str "http://foobar.com"),
      ("callback_url", JVal.str "fijfij"), ("extra", JVal.str "whatever")]) = true ∧
    unmarshalFails (Wire.obj [("aggr_id", JVal.boolean true), ("url", JVal.str "http://foobar.com"),
      ("callback_url", JVal.str "http://foo.bar"), ("extra", JVal.str "whatever")]) = true ∧
    unmarshalFails (Wire.obj [("aggr_id", JVal.str ""), ("url", JVal.str "http://foobar.com"),
      ("callback_url", JVal.str "http://foo.bar"), ("extra", JVal.str "whatever")]) = true ∧
    unmarshalFails (Wire.obj [("aggr_id", JVal.str "foo"), ("url", JVal.str "http://foobar.com"),
      ("callback_url", JVal.str "http://foo.bar")]) = false ∧
    unmarshalFails (Wire.obj [("aggr_id", JVal.str "foo"), ("url", JVal.str "http://foobar.com"),
      ("callback_url", JVal.str "http://foo.bar"), ("extra", JVal.str "whatever")]) = false ∧
    unmarshalFails (Wire.obj [("aggr_id", JVal.str "foo"), ("url", JVal.str "http://foobar.com"),
      ("callback_url", JVal.str "http://foo.bar"), ("extra", JVal.str "")]) = false ∧
    unmarshalFails (Wire.obj [("aggr_id", JVal.str "timeoutfoo"),
      ("download_timeout", JVal.int 12), ("url", JVal.str "http://foobar.com"),
      ("callback_url", JVal.str "http://foo.bar"), ("extra", JVal.str "whatever")]) = false ∧
    unmarshalFails (Wire.obj [("aggr_id", JVal.str "timeoutfoo"),
      ("url", JVal.str "http://foobar.com"),
      ("callback_url", JVal.str "http://foo.bar"), ("extra", JVal.str "whatever")]) = false ∧
    unmarshalFails (Wire.obj [("aggr_id", JVal.str "timeoutfoo"),
      ("download_timeout", JVal.null), ("url", JVal.str "http://foobar.com"),
      ("callback_url", JVal.str "http://foo.bar"), ("extra", JVal.str "whatever")]) = true ∧
    unmarshalFails (Wire.obj [("aggr_id", JVal.str "timeoutfoo"),
      ("download_timeout", JVal.int 0), ("url", JVal.str "http://foobar.com"),
      ("callback_url", JVal.str "http://foo.bar"), ("extra", JVal.str "whatever")]) = true ∧
    unmarshalFails (Wire.obj [("aggr_id", JVal.str "timeoutfoo"),
      ("download_timeout", JVal.int (-2)), ("url", JVal.str "http://foobar.com"),
      ("callback_url", JVal.str "http://foo.bar"), ("extra", JVal.str "whatever")]) = true ∧
    unmarshalFails (Wire.obj [("aggr_id", JVal.str "timeoutfoo"),
      ("download_timeout", JVal.str "4"), ("url", JVal.str "http://foobar.com"),
      ("callback_url", JVal.str "http://foo.bar"), ("extra", JVal.str "whatever")]) = true := by
  decide

end Downloader
